import Mathlib

/-!
# bud: remote filesystem client and CLI entry point

A shallow embedding of `package/remotefs/client.go` and of `CLI.Run` from
`internal/cli/cli.go`, followed by theorems about error normalization,
directory listings, context rebinding, call accounting and the CLI's
treatment of cancellation.

Go strings are rendered as Lean strings and inspected through their character
lists. The phrases the client looks for are plain ASCII, for which a test on
bytes and a test on characters of well-formed text agree.
-/

namespace Bud

/-! ## The `strings` helpers used by the client -/

namespace strings

/-- Go: `len(s) >= len(suffix) && s[len(s)-len(suffix):] == suffix`. -/
def HasSuffix (s suffix : String) : Bool :=
  decide (suffix.data.length ≤ s.data.length) &&
    (s.data.drop (s.data.length - suffix.data.length) == suffix.data)

/-- Scan for the first position at which `substr` starts; Go: `Index(s, substr) >= 0`. -/
def containsFrom : List Char → List Char → Bool
  | [], substr => substr.isPrefixOf []
  | c :: cs, substr => substr.isPrefixOf (c :: cs) || containsFrom cs substr

/-- Go: `strings.Contains(s, substr)`. -/
def Contains (s substr : String) : Bool :=
  containsFrom s.data substr.data

end strings

/-! ## Error values -/

/-- Go error values that occur around the client and the CLI. -/
inductive GoError where
  /-- The sentinel `fs.ErrNotExist`. -/
  | ErrNotExist
  /-- The sentinel `context.Canceled`. -/
  | Canceled
  /-- An error that carries only its text and unwraps to nothing, such as the
  `rpc.ServerError` string a failed remote call hands back, or `errors.New`. -/
  | text (msg : String)
  /-- A `*fs.PathError` with its three fields. -/
  | PathError (Op : String) (Path : String) (Err : GoError)
  /-- An error built by `fmt.Errorf` with a wrapping verb: its text and the error it wraps. -/
  | wrapped (msg : String) (Err : GoError)
  deriving DecidableEq, Repr

namespace GoError

/-- The `Error()` method. For a path error Go returns `Op + " " + Path + ": " + Err.Error()`. -/
def Error : GoError → String
  | ErrNotExist => "file does not exist"
  | Canceled => "context canceled"
  | text msg => msg
  | PathError op path err => op ++ " " ++ path ++ ": " ++ err.Error
  | wrapped msg _ => msg

end GoError

/-- Go: `errors.Is(err, target)`: walk the chain of `Unwrap()` from `err` looking for
`target`. A path error unwraps to its `Err` field, an error made with a wrapping verb to
the error it wraps, and the other errors unwrap to nothing. -/
def errorsIs : GoError → GoError → Bool
  | GoError.PathError op path err, target =>
      decide (GoError.PathError op path err = target) || errorsIs err target
  | GoError.wrapped msg err, target =>
      decide (GoError.wrapped msg err = target) || errorsIs err target
  | err, target => decide (err = target)

/-! ## Contexts, virtual entities and the call engine -/

/-- A `context.Context`, known by its identity: the background context or another one. -/
inductive Context where
  | Background
  | other (id : Nat)
  deriving DecidableEq, Repr

/-- Modelled from the spec: `virtual.File`, the serializable file of the entity model
(name, mode and content; the size is the length of the content). -/
structure VirtualFile where
  Path : String
  Data : List Nat
  Mode : Nat
  deriving DecidableEq, Repr

/-- Modelled from the spec: `virtual.DirEntry`, one entry of a directory listing
(name, whether it is a directory, mode). -/
structure DirEntry where
  Path : String
  IsDir : Bool
  Mode : Nat
  deriving DecidableEq, Repr

/-- Modelled from the spec: the local file handle that `virtual.Open` wraps around a
populated `virtual.File`, positioned at the start of the content. -/
structure FileHandle where
  file : VirtualFile
  offset : Nat
  deriving DecidableEq, Repr

/-- Modelled from the spec: `virtual.Open` wraps the populated file into a local handle. -/
def virtualOpen (file : VirtualFile) : FileHandle :=
  ⟨file, 0⟩

/-- One call issued to the engine: the context, the service method and the request. -/
structure CallRecord where
  ctx : Context
  serviceMethod : String
  args : String
  deriving DecidableEq, Repr

/-- The call engine `*rpc.Client`, which lives outside the repository. It is known by how
it answers a call given the calls issued so far: with an error, or by filling the reply
target (a `*virtual.File`, or a slice of directory entries which may be nil). -/
structure RpcClient where
  replyFile : List CallRecord → CallRecord → Except GoError VirtualFile
  replyDirEntries : List CallRecord → CallRecord → Except GoError (Option (List DirEntry))

namespace RpcClient

/-- Go: `rpc.Call(ctx, serviceMethod, args, reply)` with a `*virtual.File` reply target.
The call is recorded in the log of issued calls. -/
def CallFile (r : RpcClient) (ctx : Context) (serviceMethod args : String)
    (log : List CallRecord) : Except GoError VirtualFile × List CallRecord :=
  (r.replyFile log ⟨ctx, serviceMethod, args⟩, log ++ [⟨ctx, serviceMethod, args⟩])

/-- Go: `rpc.Call(ctx, serviceMethod, args, reply)` with a directory-entry slice as reply
target. The call is recorded in the log of issued calls. -/
def CallDirEntries (r : RpcClient) (ctx : Context) (serviceMethod args : String)
    (log : List CallRecord) : Except GoError (Option (List DirEntry)) × List CallRecord :=
  (r.replyDirEntries log ⟨ctx, serviceMethod, args⟩, log ++ [⟨ctx, serviceMethod, args⟩])

end RpcClient

/-! ## The client (`package/remotefs/client.go`) -/

/-- Go: `type Client struct { rpc *rpc.Client; ctx context.Context }`. -/
structure Client where
  rpc : RpcClient
  ctx : Context

/-- The allocated `Client` objects; a `*Client` is an index into this list. -/
abbrev Heap := List Client

/-- Go: `func NewClient(rpc *rpc.Client) *Client`: allocates `&Client{rpc, context.Background()}`. -/
def NewClient (rpc : RpcClient) (heap : Heap) : Nat × Heap :=
  (heap.length, heap ++ [⟨rpc, Context.Background⟩])

/-- Go: `func (c *Client) WithContext(ctx context.Context) *Client`: allocates
`&Client{c.rpc, ctx}`. Dereferencing a pointer that is not allocated gives no result. -/
def WithContext (heap : Heap) (c : Nat) (ctx : Context) : Option (Nat × Heap) :=
  match heap[c]? with
  | none => none
  | some cl => some (heap.length, heap ++ [⟨cl.rpc, ctx⟩])

/-- Go: `isNotExist`: the text ends with the text of `fs.ErrNotExist` or with the
platform phrase. -/
def isNotExist (err : GoError) : Bool :=
  strings.HasSuffix err.Error GoError.ErrNotExist.Error ||
    strings.HasSuffix err.Error "no such file or directory"

/-- Go: `isNotWire`: the text does not contain "unable to wire". -/
def isNotWire (err : GoError) : Bool :=
  !strings.Contains err.Error "unable to wire"

/-- Go: `func (c *Client) Open(name string) (fs.File, error)`. The result is the returned
pair (nil is `none`) together with the log of issued calls after the operation. -/
def Client.Open (c : Client) (name : String) (log : List CallRecord) :
    (Option FileHandle × Option GoError) × List CallRecord :=
  match c.rpc.CallFile c.ctx "remotefs.Open" name log with
  | (Except.error err, log1) =>
      if isNotExist err && isNotWire err then
        ((none, some (GoError.PathError "open" name GoError.ErrNotExist)), log1)
      else
        ((none, some err), log1)
  | (Except.ok file, log1) => ((some (virtualOpen file), none), log1)

/-- Go: `func (c *Client) ReadDir(name string) (des []fs.DirEntry, err error)`. The result
is the returned pair (a nil slice is `none`) together with the log of issued calls. -/
def Client.ReadDir (c : Client) (name : String) (log : List CallRecord) :
    (Option (List DirEntry) × Option GoError) × List CallRecord :=
  match c.rpc.CallDirEntries c.ctx "remotefs.ReadDir" name log with
  | (Except.error err, log1) =>
      if isNotExist err && isNotWire err then
        ((none, some (GoError.PathError "readdir" name GoError.ErrNotExist)), log1)
      else
        ((none, some err), log1)
  | (Except.ok vdes, log1) => ((vdes, none), log1)

/-- The error both operations hand to the caller when the remote call has failed with
`err`: the branch `if isNotExist(err) && isNotWire(err)` shared by Open and ReadDir, with
`op` the operation name written into the path error. -/
def returnedError (op name : String) (err : GoError) : GoError :=
  if isNotExist err && isNotWire err then GoError.PathError op name GoError.ErrNotExist
  else err

/-! ## The CLI entry point (`internal/cli/cli.go`) -/

/-- What `CLI.Run` relies on from outside the file: the Go version check
`versions.CheckGo`, the running Go version, and `Parse` of the command tree, which parses
the arguments and runs the selected command on a state of type `σ`. -/
structure RunEnv (σ : Type) where
  CheckGo : String → Option GoError
  runtimeVersion : String
  Parse : Context → List String → σ → Option GoError × σ

/-- Go: `func (c *CLI) Run(ctx context.Context, args ...string) error`. The result is the
returned error together with the state left behind. -/
def CLI.Run {σ : Type} (env : RunEnv σ) (ctx : Context) (args : List String) (s : σ) :
    Option GoError × σ :=
  match env.CheckGo env.runtimeVersion with
  | some err => (some err, s)
  | none =>
      match env.Parse ctx args s with
      | (some err, s1) =>
          if errorsIs err GoError.Canceled then (none, s1) else (some err, s1)
      | (none, s1) => (none, s1)

/-! ## Concrete call engines used in the examples -/

/-- An engine that fails every call with a text error carrying `msg`. -/
def engineFail (msg : String) : RpcClient :=
  ⟨fun _ _ => Except.error (GoError.text msg), fun _ _ => Except.error (GoError.text msg)⟩

/-- An engine that answers every directory call with the listing `des` and fails file calls. -/
def engineList (des : List DirEntry) : RpcClient :=
  ⟨fun _ _ => Except.error (GoError.text "is a directory"), fun _ _ => Except.ok (some des)⟩

/-- An engine whose calls are cut short by cancellation: every call fails with
`context.Canceled`. -/
def engineCanceled : RpcClient :=
  ⟨fun _ _ => Except.error GoError.Canceled, fun _ _ => Except.error GoError.Canceled⟩

/-- An engine that fails every call with an error wrapping `fs.ErrNotExist`, as
`fmt.Errorf("unable to wire: %w", fs.ErrNotExist)` builds it. -/
def engineWrapped : RpcClient :=
  ⟨fun _ _ => Except.error
      (GoError.wrapped "unable to wire: file does not exist" GoError.ErrNotExist),
    fun _ _ => Except.error
      (GoError.wrapped "unable to wire: file does not exist" GoError.ErrNotExist)⟩

/-- A run environment whose version check passes and whose command ends with `result`,
counting the commands run in the state. -/
def envParse (result : Option GoError) : RunEnv Nat :=
  ⟨fun _ => none, "go1.19", fun _ _ n => (result, n + 1)⟩

/-- A run environment whose version check fails. -/
def envOldGo : RunEnv Nat :=
  ⟨fun _ => some (GoError.text "unsupported go version"), "go1.15", fun _ _ n => (none, n + 1)⟩

/-! ## Lemmas about the string tests -/

namespace strings

theorem hasSuffix_append (a suffix : String) : HasSuffix (a ++ suffix) suffix = true := by
  simp [HasSuffix, String.data_append]

theorem hasSuffix_iff (s suffix : String) :
    HasSuffix s suffix = true ↔ ∃ a : List Char, s.data = a ++ suffix.data := by
  unfold HasSuffix
  simp only [Bool.and_eq_true, decide_eq_true_eq, beq_iff_eq]
  constructor
  · rintro ⟨_, hd⟩
    refine ⟨s.data.take (s.data.length - suffix.data.length), ?_⟩
    have h := List.take_append_drop (s.data.length - suffix.data.length) s.data
    rw [hd] at h
    exact h.symm
  · rintro ⟨a, ha⟩
    rw [ha]
    simp

theorem containsFrom_iff (p : List Char) :
    ∀ s : List Char, containsFrom s p = true ↔ ∃ a b : List Char, s = a ++ p ++ b := by
  intro s
  induction s with
  | nil =>
      cases p with
      | nil => simp [containsFrom]
      | cons x p => simp [containsFrom]
  | cons c cs ih =>
      simp only [containsFrom, Bool.or_eq_true, ih]
      constructor
      · rintro (h | ⟨a, b, hab⟩)
        · obtain ⟨b, hb⟩ := List.isPrefixOf_iff_prefix.mp h
          exact ⟨[], b, by simp [hb]⟩
        · exact ⟨c :: a, b, by simp [hab]⟩
      · rintro ⟨a, b, hab⟩
        cases a with
        | nil =>
            left
            exact List.isPrefixOf_iff_prefix.mpr ⟨b, by simpa using hab.symm⟩
        | cons x a =>
            right
            simp only [List.cons_append, List.cons.injEq] at hab
            exact ⟨a, b, hab.2⟩

theorem isPrefixOf_append_cons (p : List Char) :
    ∀ (s : List Char) (x : Char) (t : List Char), x ∉ p →
      p.isPrefixOf (s ++ x :: t) = p.isPrefixOf s := by
  induction p with
  | nil => intro s x t _; simp
  | cons a p ih =>
      intro s x t hx
      have hax : a ≠ x := fun h => hx (by simp [h])
      have hxp : x ∉ p := fun h => hx (by simp [h])
      cases s with
      | nil => simp [List.isPrefixOf, hax]
      | cons b s => simp [List.isPrefixOf, ih s x t hxp]

theorem containsFrom_cons_ne (c a : Char) (s p : List Char) (h : a ≠ c) :
    containsFrom (c :: s) (a :: p) = containsFrom s (a :: p) := by
  simp [containsFrom, List.isPrefixOf, h]

theorem containsFrom_append_cons (a : Char) (p : List Char) (x : Char) (t : List Char)
    (hx : x ∉ a :: p) :
    ∀ s : List Char, containsFrom (s ++ x :: t) (a :: p)
      = (containsFrom s (a :: p) || containsFrom t (a :: p)) := by
  intro s
  induction s with
  | nil =>
      have hax : a ≠ x := fun h => hx (by simp [h])
      simp [containsFrom, List.isPrefixOf, hax]
  | cons c s ih =>
      have h1 := isPrefixOf_append_cons (a :: p) (c :: s) x t hx
      simp only [List.cons_append] at h1 ⊢
      simp only [containsFrom, h1, ih, Bool.or_assoc]

theorem contains_pathError_open (name : String) :
    Contains ("open" ++ " " ++ name ++ ": " ++ "file does not exist") "unable to wire"
      = Contains name "unable to wire" := by
  have hd : ("open" ++ " " ++ name ++ ": " ++ "file does not exist").data
      = 'o' :: 'p' :: 'e' :: 'n' :: ' ' :: (name.data ++ ':' :: " file does not exist".data) := by
    simp only [String.data_append, List.append_assoc]
    rfl
  have hp : "unable to wire".data = 'u' :: "nable to wire".data := rfl
  have hx : ':' ∉ 'u' :: "nable to wire".data := by decide
  have ht : containsFrom " file does not exist".data ('u' :: "nable to wire".data) = false := by
    decide
  unfold Contains
  rw [hd, hp]
  rw [containsFrom_cons_ne _ _ _ _ (by decide), containsFrom_cons_ne _ _ _ _ (by decide),
    containsFrom_cons_ne _ _ _ _ (by decide), containsFrom_cons_ne _ _ _ _ (by decide),
    containsFrom_cons_ne _ _ _ _ (by decide)]
  rw [containsFrom_append_cons _ _ _ _ hx, ht, Bool.or_false]

theorem contains_pathError_readdir (name : String) :
    Contains ("readdir" ++ " " ++ name ++ ": " ++ "file does not exist") "unable to wire"
      = Contains name "unable to wire" := by
  have hd : ("readdir" ++ " " ++ name ++ ": " ++ "file does not exist").data
      = 'r' :: 'e' :: 'a' :: 'd' :: 'd' :: 'i' :: 'r' :: ' ' ::
          (name.data ++ ':' :: " file does not exist".data) := by
    simp only [String.data_append, List.append_assoc]
    rfl
  have hp : "unable to wire".data = 'u' :: "nable to wire".data := rfl
  have hx : ':' ∉ 'u' :: "nable to wire".data := by decide
  have ht : containsFrom " file does not exist".data ('u' :: "nable to wire".data) = false := by
    decide
  unfold Contains
  rw [hd, hp]
  rw [containsFrom_cons_ne _ _ _ _ (by decide), containsFrom_cons_ne _ _ _ _ (by decide),
    containsFrom_cons_ne _ _ _ _ (by decide), containsFrom_cons_ne _ _ _ _ (by decide),
    containsFrom_cons_ne _ _ _ _ (by decide), containsFrom_cons_ne _ _ _ _ (by decide),
    containsFrom_cons_ne _ _ _ _ (by decide), containsFrom_cons_ne _ _ _ _ (by decide)]
  rw [containsFrom_append_cons _ _ _ _ hx, ht, Bool.or_false]

end strings

/-! ## Lemmas about the two operations -/

theorem Client.Open_error (c : Client) (name : String) (log : List CallRecord) (e : GoError)
    (hcall : c.rpc.replyFile log ⟨c.ctx, "remotefs.Open", name⟩ = Except.error e) :
    (c.Open name log).1 = (none, some (returnedError "open" name e)) := by
  unfold Client.Open RpcClient.CallFile returnedError
  rw [hcall]
  by_cases h : (isNotExist e && isNotWire e) = true <;> simp [h]

theorem Client.ReadDir_error (c : Client) (name : String) (log : List CallRecord) (e : GoError)
    (hcall : c.rpc.replyDirEntries log ⟨c.ctx, "remotefs.ReadDir", name⟩ = Except.error e) :
    (c.ReadDir name log).1 = (none, some (returnedError "readdir" name e)) := by
  unfold Client.ReadDir RpcClient.CallDirEntries returnedError
  rw [hcall]
  by_cases h : (isNotExist e && isNotWire e) = true <;> simp [h]

theorem Client.Open_log (c : Client) (name : String) (log : List CallRecord) :
    (c.Open name log).2 = log ++ [⟨c.ctx, "remotefs.Open", name⟩] := by
  unfold Client.Open RpcClient.CallFile
  cases c.rpc.replyFile log ⟨c.ctx, "remotefs.Open", name⟩ with
  | error e => by_cases h : (isNotExist e && isNotWire e) = true <;> simp [h]
  | ok f => rfl

theorem Client.ReadDir_log (c : Client) (name : String) (log : List CallRecord) :
    (c.ReadDir name log).2 = log ++ [⟨c.ctx, "remotefs.ReadDir", name⟩] := by
  unfold Client.ReadDir RpcClient.CallDirEntries
  cases c.rpc.replyDirEntries log ⟨c.ctx, "remotefs.ReadDir", name⟩ with
  | error e => by_cases h : (isNotExist e && isNotWire e) = true <;> simp [h]
  | ok f => rfl

theorem gate_of_not_found_text (e : GoError)
    (hsuf : strings.HasSuffix e.Error "file does not exist" = true ∨
      strings.HasSuffix e.Error "no such file or directory" = true)
    (hwire : strings.Contains e.Error "unable to wire" = false) :
    (isNotExist e && isNotWire e) = true := by
  have h1 : isNotExist e = true := by
    unfold isNotExist
    rcases hsuf with h | h
    · rw [show GoError.ErrNotExist.Error = "file does not exist" from rfl, h]; rfl
    · rw [h]; simp
  simp [h1, isNotWire, hwire]

theorem returnedError_of_gate (op name : String) (e : GoError)
    (h : (isNotExist e && isNotWire e) = true) :
    returnedError op name e = GoError.PathError op name GoError.ErrNotExist := by
  simp [returnedError, h]

theorem returnedError_of_not_gate (op name : String) (e : GoError)
    (h : (isNotExist e && isNotWire e) = false) :
    returnedError op name e = e := by
  simp [returnedError, h]

theorem gate_text_error (e : GoError) :
    (isNotExist (GoError.text e.Error) && isNotWire (GoError.text e.Error))
      = (isNotExist e && isNotWire e) := rfl

theorem errorsIs_returnedError (op name : String) (e : GoError)
    (he : errorsIs e GoError.ErrNotExist = false) :
    errorsIs (returnedError op name e) GoError.ErrNotExist
      = (isNotExist e && isNotWire e) := by
  cases hg : (isNotExist e && isNotWire e)
  · rw [returnedError_of_not_gate _ _ _ hg, he]
  · rw [returnedError_of_gate _ _ _ hg]
    simp [errorsIs]

theorem second_hop_gate (op name : String) (e : GoError)
    (hop : strings.Contains (op ++ " " ++ name ++ ": " ++ "file does not exist")
      "unable to wire" = strings.Contains name "unable to wire") :
    (returnedError op name (GoError.text (returnedError op name e).Error)).Error
      = (returnedError op name e).Error ∧
    errorsIs (returnedError op name (GoError.text (returnedError op name e).Error))
        GoError.ErrNotExist
      = ((isNotExist e && isNotWire e) && !strings.Contains name "unable to wire") := by
  cases hg : (isNotExist e && isNotWire e)
  · have hr : returnedError op name e = e := returnedError_of_not_gate _ _ _ hg
    have hg2 : (isNotExist (GoError.text e.Error) && isNotWire (GoError.text e.Error))
        = false := by
      rw [gate_text_error, hg]
    rw [hr, returnedError_of_not_gate _ _ _ hg2]
    exact ⟨rfl, by simp [errorsIs]⟩
  · have hr : returnedError op name e = GoError.PathError op name GoError.ErrNotExist :=
      returnedError_of_gate _ _ _ hg
    have hne : isNotExist (GoError.text
        (GoError.PathError op name GoError.ErrNotExist).Error) = true := by
      simp [isNotExist, GoError.Error, strings.hasSuffix_append]
    have hw : isNotWire (GoError.text
        (GoError.PathError op name GoError.ErrNotExist).Error)
        = !strings.Contains name "unable to wire" := by
      simp only [isNotWire, GoError.Error]
      rw [hop]
    rw [hr]
    unfold returnedError
    rw [hne, hw]
    cases hc : strings.Contains name "unable to wire" <;> simp [GoError.Error, errorsIs]

/-! ## Error normalization -/

/-- C1: when the remote call of Open fails with an error whose text ends with "file does
not exist" or with "no such file or directory" and does not contain "unable to wire", Open
returns a nil file and the path error with operation "open", the requested name as path and
`fs.ErrNotExist` as wrapped error, which `errors.Is` recognizes as `fs.ErrNotExist`. -/
theorem open_reclassifies_not_found (c : Client) (name : String) (log : List CallRecord)
    (e : GoError)
    (hcall : c.rpc.replyFile log ⟨c.ctx, "remotefs.Open", name⟩ = Except.error e)
    (hsuf : strings.HasSuffix e.Error "file does not exist" = true ∨
      strings.HasSuffix e.Error "no such file or directory" = true)
    (hwire : strings.Contains e.Error "unable to wire" = false) :
    (c.Open name log).1 = (none, some (GoError.PathError "open" name GoError.ErrNotExist)) ∧
      errorsIs (GoError.PathError "open" name GoError.ErrNotExist) GoError.ErrNotExist = true := by
  refine ⟨?_, by simp [errorsIs]⟩
  rw [Client.Open_error c name log e hcall, returnedError_of_gate _ _ _ (gate_of_not_found_text e hsuf hwire)]

/-- Open of "missing.txt" against a remote error "open missing.txt: file does not exist". -/
theorem open_reclassifies_not_found_witness :
    (Client.Open ⟨engineFail "open missing.txt: file does not exist", Context.Background⟩
        "missing.txt" []).1
      = (none, some (GoError.PathError "open" "missing.txt" GoError.ErrNotExist)) ∧
    errorsIs (GoError.PathError "open" "missing.txt" GoError.ErrNotExist)
      GoError.ErrNotExist = true :=
  open_reclassifies_not_found
    ⟨engineFail "open missing.txt: file does not exist", Context.Background⟩ "missing.txt" []
    (GoError.text "open missing.txt: file does not exist") rfl (Or.inl (by decide)) (by decide)

/-- C2: when the remote call of ReadDir fails with an error whose text ends with "file does
not exist" or with "no such file or directory" and does not contain "unable to wire",
ReadDir returns a nil entry sequence and the path error with operation "readdir", the
requested name as path and `fs.ErrNotExist` as wrapped error. -/
theorem readdir_reclassifies_not_found (c : Client) (name : String) (log : List CallRecord)
    (e : GoError)
    (hcall : c.rpc.replyDirEntries log ⟨c.ctx, "remotefs.ReadDir", name⟩ = Except.error e)
    (hsuf : strings.HasSuffix e.Error "file does not exist" = true ∨
      strings.HasSuffix e.Error "no such file or directory" = true)
    (hwire : strings.Contains e.Error "unable to wire" = false) :
    (c.ReadDir name log).1
      = (none, some (GoError.PathError "readdir" name GoError.ErrNotExist)) := by
  rw [Client.ReadDir_error c name log e hcall, returnedError_of_gate _ _ _ (gate_of_not_found_text e hsuf hwire)]

/-- ReadDir of "pages" against the platform phrase "no such file or directory". -/
theorem readdir_reclassifies_not_found_witness :
    (Client.ReadDir ⟨engineFail "open pages: no such file or directory", Context.other 1⟩
        "pages" []).1
      = (none, some (GoError.PathError "readdir" "pages" GoError.ErrNotExist)) :=
  readdir_reclassifies_not_found
    ⟨engineFail "open pages: no such file or directory", Context.other 1⟩ "pages" []
    (GoError.text "open pages: no such file or directory") rfl (Or.inr (by decide)) (by decide)

/-- C3: a remote-call error whose text contains "unable to wire" and also ends with "file
does not exist" or "no such file or directory" is not reclassified: Open and ReadDir each
return that very error, whatever error value it is; and when it is a text error, as the
engine hands back for a failure on the remote side, it is not the canonical not-found path
error and `errors.Is` does not recognize it as `fs.ErrNotExist`. -/
theorem wiring_error_passes_through (c : Client) (name : String)
    (logO logR : List CallRecord) (e : GoError)
    (hwire : strings.Contains e.Error "unable to wire" = true)
    (_hsuf : strings.HasSuffix e.Error "file does not exist" = true ∨
      strings.HasSuffix e.Error "no such file or directory" = true) :
    (c.rpc.replyFile logO ⟨c.ctx, "remotefs.Open", name⟩ = Except.error e →
      (c.Open name logO).1 = (none, some e)) ∧
    (c.rpc.replyDirEntries logR ⟨c.ctx, "remotefs.ReadDir", name⟩ = Except.error e →
      (c.ReadDir name logR).1 = (none, some e)) ∧
    (∀ msg : String, e = GoError.text msg →
      e ≠ GoError.PathError "open" name GoError.ErrNotExist ∧
      e ≠ GoError.PathError "readdir" name GoError.ErrNotExist ∧
      errorsIs e GoError.ErrNotExist = false) := by
  have hgate : (isNotExist e && isNotWire e) = false := by
    simp [isNotWire, hwire]
  refine ⟨?_, ?_, ?_⟩
  · intro hcall
    rw [Client.Open_error c name logO _ hcall, returnedError_of_not_gate _ _ _ hgate]
  · intro hcall
    rw [Client.ReadDir_error c name logR _ hcall, returnedError_of_not_gate _ _ _ hgate]
  · intro msg hmsg
    subst hmsg
    exact ⟨by simp, by simp, by simp [errorsIs]⟩

/-- A dependency-injection failure that ends like a missing file. -/
theorem wiring_error_passes_through_witness :
    (Client.Open ⟨engineFail "di: unable to wire web.Server: file does not exist",
        Context.Background⟩ "bud/web" []).1
      = (none, some (GoError.text "di: unable to wire web.Server: file does not exist")) ∧
    (Client.ReadDir ⟨engineFail "di: unable to wire web.Server: file does not exist",
        Context.Background⟩ "bud/web" []).1
      = (none, some (GoError.text "di: unable to wire web.Server: file does not exist")) ∧
    GoError.text "di: unable to wire web.Server: file does not exist"
      ≠ GoError.PathError "open" "bud/web" GoError.ErrNotExist ∧
    GoError.text "di: unable to wire web.Server: file does not exist"
      ≠ GoError.PathError "readdir" "bud/web" GoError.ErrNotExist ∧
    errorsIs (GoError.text "di: unable to wire web.Server: file does not exist")
      GoError.ErrNotExist = false :=
  have h := wiring_error_passes_through
    ⟨engineFail "di: unable to wire web.Server: file does not exist", Context.Background⟩
    "bud/web" [] [] (GoError.text "di: unable to wire web.Server: file does not exist")
    (by decide) (Or.inl (by decide))
  ⟨h.1 rfl, h.2.1 rfl, h.2.2 _ rfl⟩

/-- C4: a remote-call error whose text ends with neither "file does not exist" nor "no such
file or directory" is returned by Open and by ReadDir as it is, with a nil result. -/
theorem other_error_passes_through (c : Client) (name : String)
    (logO logR : List CallRecord) (e : GoError)
    (h1 : strings.HasSuffix e.Error "file does not exist" = false)
    (h2 : strings.HasSuffix e.Error "no such file or directory" = false) :
    (c.rpc.replyFile logO ⟨c.ctx, "remotefs.Open", name⟩ = Except.error e →
      (c.Open name logO).1 = (none, some e)) ∧
    (c.rpc.replyDirEntries logR ⟨c.ctx, "remotefs.ReadDir", name⟩ = Except.error e →
      (c.ReadDir name logR).1 = (none, some e)) := by
  have hgate : (isNotExist e && isNotWire e) = false := by
    have : isNotExist e = false := by
      unfold isNotExist
      rw [show GoError.ErrNotExist.Error = "file does not exist" from rfl, h1, h2]
      rfl
    simp [this]
  constructor
  · intro hcall
    rw [Client.Open_error c name logO e hcall, returnedError_of_not_gate _ _ _ hgate]
  · intro hcall
    rw [Client.ReadDir_error c name logR e hcall, returnedError_of_not_gate _ _ _ hgate]

/-- A text that holds a not-found phrase only in a non-final position. -/
theorem other_error_passes_through_witness :
    (Client.Open ⟨engineFail "file does not exist: retry later", Context.Background⟩
        "a.txt" []).1
      = (none, some (GoError.text "file does not exist: retry later")) ∧
    (Client.ReadDir ⟨engineFail "file does not exist: retry later", Context.Background⟩
        "a.txt" []).1
      = (none, some (GoError.text "file does not exist: retry later")) :=
  have h := other_error_passes_through
    ⟨engineFail "file does not exist: retry later", Context.Background⟩ "a.txt" [] []
    (GoError.text "file does not exist: retry later") (by decide) (by decide)
  ⟨h.1 rfl, h.2 rfl⟩

/-! ## Paths that do not exist remotely -/

/-- C5, as amended: when the server answers the call with an error whose text ends in a
not-found phrase and does not contain "unable to wire", the error returned by Open and the
error returned by ReadDir are recognized by `errors.Is` as `fs.ErrNotExist`. -/
theorem missing_path_is_not_found (c : Client) (path : String)
    (logO logR : List CallRecord) (e : GoError)
    (hsuf : strings.HasSuffix e.Error "file does not exist" = true ∨
      strings.HasSuffix e.Error "no such file or directory" = true)
    (hwire : strings.Contains e.Error "unable to wire" = false) :
    (c.rpc.replyFile logO ⟨c.ctx, "remotefs.Open", path⟩ = Except.error e →
      ∃ err, (c.Open path logO).1 = (none, some err) ∧
        errorsIs err GoError.ErrNotExist = true) ∧
    (c.rpc.replyDirEntries logR ⟨c.ctx, "remotefs.ReadDir", path⟩ = Except.error e →
      ∃ err, (c.ReadDir path logR).1 = (none, some err) ∧
        errorsIs err GoError.ErrNotExist = true) := by
  have hgate := gate_of_not_found_text e hsuf hwire
  constructor
  · intro hcall
    refine ⟨GoError.PathError "open" path GoError.ErrNotExist, ?_, by simp [errorsIs]⟩
    rw [Client.Open_error c path logO e hcall, returnedError_of_gate _ _ _ hgate]
  · intro hcall
    refine ⟨GoError.PathError "readdir" path GoError.ErrNotExist, ?_, by simp [errorsIs]⟩
    rw [Client.ReadDir_error c path logR e hcall, returnedError_of_gate _ _ _ hgate]

/-- A missing path whose name has nothing to do with wiring. -/
theorem missing_path_is_not_found_witness :
    (∃ err, (Client.Open ⟨engineFail "open view/index.svelte: file does not exist",
        Context.Background⟩ "view/index.svelte" []).1 = (none, some err) ∧
      errorsIs err GoError.ErrNotExist = true) ∧
    (∃ err, (Client.ReadDir ⟨engineFail "open view/index.svelte: file does not exist",
        Context.Background⟩ "view/index.svelte" []).1 = (none, some err) ∧
      errorsIs err GoError.ErrNotExist = true) :=
  have h := missing_path_is_not_found
    ⟨engineFail "open view/index.svelte: file does not exist", Context.Background⟩
    "view/index.svelte" [] [] (GoError.text "open view/index.svelte: file does not exist")
    (Or.inl (by decide)) (by decide)
  ⟨h.1 rfl, h.2 rfl⟩

/-- C5 fails as stated: for the missing path "unable to wire.txt" the server answers "open
unable to wire.txt: file does not exist", which ends in a not-found phrase, yet Open and
ReadDir return that text error and `errors.Is` does not recognize it as `fs.ErrNotExist`. -/
theorem missing_path_counterexample :
    strings.HasSuffix (GoError.text "open unable to wire.txt: file does not exist").Error
      "file does not exist" = true ∧
    (Client.Open ⟨engineFail "open unable to wire.txt: file does not exist",
        Context.Background⟩ "unable to wire.txt" []).1
      = (none, some (GoError.text "open unable to wire.txt: file does not exist")) ∧
    (Client.ReadDir ⟨engineFail "open unable to wire.txt: file does not exist",
        Context.Background⟩ "unable to wire.txt" []).1
      = (none, some (GoError.text "open unable to wire.txt: file does not exist")) ∧
    errorsIs (GoError.text "open unable to wire.txt: file does not exist")
      GoError.ErrNotExist = false := by
  decide

/-! ## Directory listings -/

/-- C6: when the remote call of ReadDir succeeds, ReadDir returns a nil error and exactly
the sequence the call wrote into the reply, and two calls that receive the same reply
return the same sequence. -/
theorem readdir_returns_reply (c : Client) (name : String) (log : List CallRecord)
    (vdes : Option (List DirEntry))
    (hcall : c.rpc.replyDirEntries log ⟨c.ctx, "remotefs.ReadDir", name⟩ = Except.ok vdes) :
    (c.ReadDir name log).1 = (vdes, none) ∧
    ∀ (c2 : Client) (name2 : String) (log2 : List CallRecord),
      c2.rpc.replyDirEntries log2 ⟨c2.ctx, "remotefs.ReadDir", name2⟩ = Except.ok vdes →
      (c2.ReadDir name2 log2).1 = (c.ReadDir name log).1 := by
  have key : ∀ (d : Client) (n : String) (l : List CallRecord),
      d.rpc.replyDirEntries l ⟨d.ctx, "remotefs.ReadDir", n⟩ = Except.ok vdes →
      (d.ReadDir n l).1 = (vdes, none) := by
    intro d n l h
    unfold Client.ReadDir RpcClient.CallDirEntries
    rw [h]
  refine ⟨key c name log hcall, ?_⟩
  intro c2 name2 log2 h2
  rw [key c2 name2 log2 h2, key c name log hcall]

/-- The listing of "." with the file "a.txt" followed by the directory "sub". -/
theorem readdir_returns_reply_witness :
    (Client.ReadDir ⟨engineList [⟨"a.txt", false, 0⟩, ⟨"sub", true, 0⟩], Context.Background⟩
        "." []).1
      = (some [⟨"a.txt", false, 0⟩, ⟨"sub", true, 0⟩], none) :=
  (readdir_returns_reply
    ⟨engineList [⟨"a.txt", false, 0⟩, ⟨"sub", true, 0⟩], Context.Background⟩ "." []
    (some [⟨"a.txt", false, 0⟩, ⟨"sub", true, 0⟩]) rfl).1

/-! ## Context rebinding and call accounting -/

/-- C8: whatever the outcome of the call, Open appends exactly one call to the log of
issued calls, with method "remotefs.Open", the name as request and the context of the
client, and ReadDir appends exactly one call, with method "remotefs.ReadDir", the name as
request and the context of the client. -/
theorem one_call_per_operation (c : Client) (name : String) (log : List CallRecord) :
    (c.Open name log).2 = log ++ [⟨c.ctx, "remotefs.Open", name⟩] ∧
    (c.ReadDir name log).2 = log ++ [⟨c.ctx, "remotefs.ReadDir", name⟩] := by
  exact ⟨Client.Open_log c name log, Client.ReadDir_log c name log⟩

/-- C7: a client made by NewClient holds the background context; WithContext on an
allocated client returns a newly allocated client with the same call engine and the given
context, leaves every client allocated before (the receiver among them) as it was, and a
later Open or ReadDir on the receiver passes its original context while the same operation
on the derived client passes the given one. -/
theorem withContext_derives_client (rpc : RpcClient) (heap0 heap : Heap) (c : Nat)
    (cl : Client) (ctx2 : Context) (hc : heap[c]? = some cl) :
    (NewClient rpc heap0).2[(NewClient rpc heap0).1]? = some ⟨rpc, Context.Background⟩ ∧
    ∃ (d : Nat) (heap2 : Heap) (dcl : Client),
      WithContext heap c ctx2 = some (d, heap2) ∧ d ≠ c ∧ heap[d]? = none ∧
      heap2[d]? = some dcl ∧ dcl.rpc = cl.rpc ∧ dcl.ctx = ctx2 ∧
      (∀ (p : Nat) (x : Client), heap[p]? = some x → heap2[p]? = some x) ∧
      heap2[c]? = some cl ∧
      ∀ (name : String) (log : List CallRecord),
        (cl.Open name log).2 = log ++ [⟨cl.ctx, "remotefs.Open", name⟩] ∧
        (cl.ReadDir name log).2 = log ++ [⟨cl.ctx, "remotefs.ReadDir", name⟩] ∧
        (dcl.Open name log).2 = log ++ [⟨ctx2, "remotefs.Open", name⟩] ∧
        (dcl.ReadDir name log).2 = log ++ [⟨ctx2, "remotefs.ReadDir", name⟩] := by
  have hlt : c < heap.length := by
    rcases List.getElem?_eq_some.mp hc with ⟨h, _⟩
    exact h
  have frame : ∀ (p : Nat) (x : Client), heap[p]? = some x →
      (heap ++ [(⟨cl.rpc, ctx2⟩ : Client)])[p]? = some x := by
    intro p x hp
    rcases List.getElem?_eq_some.mp hp with ⟨h, _⟩
    rw [List.getElem?_append_left h]
    exact hp
  refine ⟨by simp [NewClient], heap.length, heap ++ [⟨cl.rpc, ctx2⟩], ⟨cl.rpc, ctx2⟩,
    ?_, ?_, ?_, ?_, rfl, rfl, frame, frame c cl hc, ?_⟩
  · simp [WithContext, hc]
  · omega
  · simp
  · simp
  · intro name log
    exact ⟨Client.Open_log cl name log, Client.ReadDir_log cl name log,
      Client.Open_log ⟨cl.rpc, ctx2⟩ name log, Client.ReadDir_log ⟨cl.rpc, ctx2⟩ name log⟩

/-- A client made by NewClient on an empty heap, rebound to another context. -/
theorem withContext_derives_client_witness :
    ∃ (d : Nat) (heap2 : Heap) (dcl : Client),
      WithContext (NewClient (engineFail "closed") []).2 0 (Context.other 7)
        = some (d, heap2) ∧ d ≠ 0 ∧
      heap2[d]? = some dcl ∧ dcl.ctx = Context.other 7 ∧
      heap2[0]? = some ⟨engineFail "closed", Context.Background⟩ :=
  match (withContext_derives_client (engineFail "closed") []
      (NewClient (engineFail "closed") []).2 0
      ⟨engineFail "closed", Context.Background⟩ (Context.other 7) rfl).2 with
  | ⟨d, heap2, dcl, h1, h2, _, h4, _, h6, _, h8, _⟩ => ⟨d, heap2, dcl, h1, h2, h4, h6, h8⟩

/-! ## A second serialization hop -/

/-- C9, as amended: let `r` be the error a client returns when the remote call fails with
an error `e`, and let a second client receive, for the same operation and name, a text
error carrying exactly the text of `r`. The error `r2` the second client returns has the
same text as `r`; it is recognized as `fs.ErrNotExist` exactly when the first client
reclassified `e` and the name does not contain "unable to wire"; and when `e` is not itself
recognized as `fs.ErrNotExist`, `r2` is recognized exactly when `r` is and the name does
not contain "unable to wire". -/
theorem second_hop_keeps_classification (c1 c2 : Client) (name : String)
    (log1 log2 : List CallRecord) (e r : GoError) :
    (c1.rpc.replyFile log1 ⟨c1.ctx, "remotefs.Open", name⟩ = Except.error e →
      (c1.Open name log1).1 = (none, some r) →
      c2.rpc.replyFile log2 ⟨c2.ctx, "remotefs.Open", name⟩
        = Except.error (GoError.text r.Error) →
      ∃ r2, (c2.Open name log2).1 = (none, some r2) ∧ r2.Error = r.Error ∧
        errorsIs r2 GoError.ErrNotExist
          = ((isNotExist e && isNotWire e) && !strings.Contains name "unable to wire") ∧
        (errorsIs e GoError.ErrNotExist = false →
          errorsIs r2 GoError.ErrNotExist
            = (errorsIs r GoError.ErrNotExist && !strings.Contains name "unable to wire"))) ∧
    (c1.rpc.replyDirEntries log1 ⟨c1.ctx, "remotefs.ReadDir", name⟩ = Except.error e →
      (c1.ReadDir name log1).1 = (none, some r) →
      c2.rpc.replyDirEntries log2 ⟨c2.ctx, "remotefs.ReadDir", name⟩
        = Except.error (GoError.text r.Error) →
      ∃ r2, (c2.ReadDir name log2).1 = (none, some r2) ∧ r2.Error = r.Error ∧
        errorsIs r2 GoError.ErrNotExist
          = ((isNotExist e && isNotWire e) && !strings.Contains name "unable to wire") ∧
        (errorsIs e GoError.ErrNotExist = false →
          errorsIs r2 GoError.ErrNotExist
            = (errorsIs r GoError.ErrNotExist && !strings.Contains name "unable to wire"))) := by
  constructor
  · intro h1 hr h2
    rw [Client.Open_error c1 name log1 _ h1] at hr
    rw [Client.Open_error c2 name log2 _ h2]
    simp only [Prod.mk.injEq, Option.some.injEq, true_and] at hr
    subst hr
    have hk := second_hop_gate "open" name e (strings.contains_pathError_open name)
    refine ⟨_, rfl, hk.1, hk.2, ?_⟩
    intro he
    rw [hk.2, errorsIs_returnedError "open" name e he]
  · intro h1 hr h2
    rw [Client.ReadDir_error c1 name log1 _ h1] at hr
    rw [Client.ReadDir_error c2 name log2 _ h2]
    simp only [Prod.mk.injEq, Option.some.injEq, true_and] at hr
    subst hr
    have hk := second_hop_gate "readdir" name e (strings.contains_pathError_readdir name)
    refine ⟨_, rfl, hk.1, hk.2, ?_⟩
    intro he
    rw [hk.2, errorsIs_returnedError "readdir" name e he]

/-- A missing file reported with the platform phrase and opened through a second client,
and a cancelled directory call listed through a second client. -/
theorem second_hop_keeps_classification_witness :
    (∃ r2, (Client.Open ⟨engineFail "open a.txt: file does not exist", Context.Background⟩
        "a.txt" []).1 = (none, some r2) ∧
      r2.Error = "open a.txt: file does not exist" ∧
      errorsIs r2 GoError.ErrNotExist = true) ∧
    (∃ r2, (Client.ReadDir ⟨engineFail "context canceled", Context.Background⟩
        "pages" []).1 = (none, some r2) ∧
      r2.Error = "context canceled" ∧
      errorsIs r2 GoError.ErrNotExist = false) :=
  ⟨match (second_hop_keeps_classification
      ⟨engineFail "open a.txt: no such file or directory", Context.Background⟩
      ⟨engineFail "open a.txt: file does not exist", Context.Background⟩ "a.txt" [] []
      (GoError.text "open a.txt: no such file or directory")
      (GoError.PathError "open" "a.txt" GoError.ErrNotExist)).1 rfl (by decide) rfl with
    | ⟨r2, h, hm, _, hc⟩ => ⟨r2, h, hm.trans (by decide), (hc (by decide)).trans (by decide)⟩,
   match (second_hop_keeps_classification
      ⟨engineCanceled, Context.Background⟩
      ⟨engineFail "context canceled", Context.Background⟩ "pages" [] []
      GoError.Canceled GoError.Canceled).2 rfl (by decide) rfl with
    | ⟨r2, h, hm, _, hc⟩ => ⟨r2, h, hm.trans (by decide), (hc (by decide)).trans (by decide)⟩⟩

/-- C9 fails as stated, in two ways. For the name "unable to wire" and the remote error
"file does not exist", Open returns the not-found path error, whose text is "open unable
to wire: file does not exist"; a second client that receives that text for the same name
returns it as a text error, with the same text but not recognized as `fs.ErrNotExist`.
And for the name "a.txt" and a remote error that wraps `fs.ErrNotExist` under the text
"unable to wire: file does not exist", Open returns that error, which is recognized as
`fs.ErrNotExist`; a second client that receives its text returns a text error, which is
not. -/
theorem second_hop_counterexample :
    ((Client.Open ⟨engineFail "file does not exist", Context.Background⟩
        "unable to wire" []).1
      = (none, some (GoError.PathError "open" "unable to wire" GoError.ErrNotExist)) ∧
    (GoError.PathError "open" "unable to wire" GoError.ErrNotExist).Error
      = "open unable to wire: file does not exist" ∧
    (Client.Open ⟨engineFail "open unable to wire: file does not exist", Context.Background⟩
        "unable to wire" []).1
      = (none, some (GoError.text "open unable to wire: file does not exist")) ∧
    errorsIs (GoError.PathError "open" "unable to wire" GoError.ErrNotExist)
      GoError.ErrNotExist = true ∧
    errorsIs (GoError.text "open unable to wire: file does not exist")
      GoError.ErrNotExist = false) ∧
    ((Client.Open ⟨engineWrapped, Context.Background⟩ "a.txt" []).1
      = (none, some (GoError.wrapped "unable to wire: file does not exist"
          GoError.ErrNotExist)) ∧
    (GoError.wrapped "unable to wire: file does not exist" GoError.ErrNotExist).Error
      = "unable to wire: file does not exist" ∧
    (Client.Open ⟨engineFail "unable to wire: file does not exist", Context.Background⟩
        "a.txt" []).1
      = (none, some (GoError.text "unable to wire: file does not exist")) ∧
    errorsIs (GoError.wrapped "unable to wire: file does not exist" GoError.ErrNotExist)
      GoError.ErrNotExist = true ∧
    errorsIs (GoError.text "unable to wire: file does not exist")
      GoError.ErrNotExist = false) := by
  decide

/-! ## The CLI entry point -/

/-- C10: when the Go version check fails, Run returns the error of the check and the state
is the one it started from, so nothing was parsed or run; when the check passes, Run
returns nil if parsing and running succeed, nil if they fail with an error that is or wraps
`context.Canceled`, and that very error in every other case. -/
theorem run_treats_cancellation_as_success {σ : Type} (env : RunEnv σ) (ctx : Context)
    (args : List String) (s : σ) :
    (∀ err, env.CheckGo env.runtimeVersion = some err →
      CLI.Run env ctx args s = (some err, s)) ∧
    (env.CheckGo env.runtimeVersion = none →
      (∀ s1, env.Parse ctx args s = (none, s1) → CLI.Run env ctx args s = (none, s1)) ∧
      (∀ err s1, env.Parse ctx args s = (some err, s1) →
        errorsIs err GoError.Canceled = true → CLI.Run env ctx args s = (none, s1)) ∧
      (∀ err s1, env.Parse ctx args s = (some err, s1) →
        errorsIs err GoError.Canceled = false →
        CLI.Run env ctx args s = (some err, s1))) := by
  refine ⟨?_, ?_⟩
  · intro err h
    simp [CLI.Run, h]
  · intro h
    refine ⟨?_, ?_, ?_⟩
    · intro s1 hp
      simp [CLI.Run, h, hp]
    · intro err s1 hp hc
      simp [CLI.Run, h, hp, hc]
    · intro err s1 hp hc
      simp [CLI.Run, h, hp, hc]

/-- A command interrupted by cancellation, a command that fails otherwise, a command that
succeeds, and a Go version that is too old. -/
theorem run_treats_cancellation_as_success_witness :
    CLI.Run (envParse (some (GoError.wrapped "run: context canceled" GoError.Canceled)))
        Context.Background ["run"] 0 = (none, 1) ∧
    CLI.Run (envParse (some (GoError.text "unknown command"))) Context.Background ["rn"] 0
      = (some (GoError.text "unknown command"), 1) ∧
    CLI.Run (envParse none) Context.Background ["build"] 0 = (none, 1) ∧
    CLI.Run envOldGo Context.Background ["run"] 0
      = (some (GoError.text "unsupported go version"), 0) :=
  ⟨((run_treats_cancellation_as_success
      (envParse (some (GoError.wrapped "run: context canceled" GoError.Canceled)))
      Context.Background ["run"] 0).2 rfl).2.1 _ _ rfl (by decide),
   ((run_treats_cancellation_as_success (envParse (some (GoError.text "unknown command")))
      Context.Background ["rn"] 0).2 rfl).2.2 _ _ rfl (by decide),
   ((run_treats_cancellation_as_success (envParse none)
      Context.Background ["build"] 0).2 rfl).1 _ rfl,
   (run_treats_cancellation_as_success envOldGo Context.Background ["run"] 0).1 _ rfl⟩

end Bud
